import Mathlib

/-
Verification development for the go-pd upload client.

The development shallowly embeds the content-dedup ledger and the upload
orchestrator of the repository:

* pkg/pd/utils/hash_utils.go : GetHashFilePath, CalculateFileHash,
  SaveFileHash, LoadFileHashes, IsDuplicate
* the audit-log writer SaveUploadInfoToCSV: the program's live, headerless
  variant (src/unnamed/part_002, the one pd.go's UploadInfo literal with
  FormattedSize compiles against); the named csv_writer.go holds a stale
  header-writing snapshot of it, of which only the header row constant is
  kept here, for comparison
* the directory walker (GetFilesInDirectory)
* pkg/pd/pd.go : UploadPOST, uploadFile, UploadDirectory

File contents are modelled as Strings, the SHA-256 digest function is
abstracted as a parameter (only equality of digests matters to the code),
fallible operations return Except, and the persisted CSV stores are modelled
as lists of records held in a Store structure that every operation threads
explicitly.  Side effects performed before a failure persist, as they do for
the real files, so every operation returns a pair of an Except result and the
final Store.
-/

namespace GoPD

/-- PathInfo models what os.Stat / os.Open observe at a path of the modelled
file system: the path is absent, is a directory, or is a regular file with
the given byte content (bytes modelled as a String). -/
inductive PathInfo where
  | missing
  | dir
  | file (content : String)
deriving DecidableEq, Repr

/-- Err enumerates the error exits of the embedded code paths: the two input
validation errors of UploadPOST uploadFile, an os.Stat failure, an os.Open
or read failure, a transport-level failure of the POST, a JSON decode
failure of the response body, and a directory enumeration failure. -/
inductive Err where
  | missingPathToFile
  | missingFilename
  | statFailed
  | openFailed
  | transportFailed
  | jsonFailed
  | walkFailed
deriving DecidableEq, Repr

/-- Except carries no derived decidable equality, so the counterexamples
and witnesses provide one by case analysis. -/
instance {eps alf : Type} [DecidableEq eps] [DecidableEq alf] :
    DecidableEq (Except eps alf) := fun x y =>
  match x, y with
  | .error a, .error b =>
    if h : a = b then isTrue (by rw [h])
    else isFalse (fun hc => h (by injection hc))
  | .ok a, .ok b =>
    if h : a = b then isTrue (by rw [h])
    else isFalse (fun hc => h (by injection hc))
  | .error _, .ok _ => isFalse (fun hc => Except.noConfusion hc)
  | .ok _, .error _ => isFalse (fun hc => Except.noConfusion hc)

/-- upsert models one Go map assignment m[k] = v on an association-list
representation of the map: if the key is present its value is replaced,
otherwise the pair is appended. -/
def upsert {α : Type} (m : List (String × α)) (k : String) (v : α) :
    List (String × α) :=
  if m.any (fun e => e.1 == k) then
    m.map (fun e => if e.1 == k then (k, v) else e)
  else m ++ [(k, v)]

/-- getTab t k d looks the key k up in the association list t, returning d
when the key is absent.  It models reading one keyed persisted store out of
the collection of stores. -/
def getTab {α : Type} (t : List (String × α)) (k : String) (d : α) : α :=
  match t.find? (fun e => e.1 == k) with
  | some e => e.2
  | none => d

/-- lastLookup L k is the digest of the last ledger record whose path column
is k.  This is the specification-side notion of the value that survives the
per-path collapse performed by LoadFileHashes. -/
def lastLookup (L : List (String × String)) (k : String) : Option String :=
  (L.reverse.find? (fun e => e.1 == k)).map (fun e => e.2)

/-- storedDigest L h says that h survives the per-path last-write-wins
collapse of the ledger records L: some record's path has h as the most
recent digest recorded for it.  The bounded existential keeps the predicate
decidable by instance inference. -/
def storedDigest (L : List (String × String)) (h : String) : Prop :=
  ∃ e ∈ L, lastLookup L e.1 = some h

instance (L : List (String × String)) (h : String) :
    Decidable (storedDigest L h) :=
  inferInstanceAs (Decidable (∃ e ∈ L, lastLookup L e.1 = some h))

namespace utils

/-- GetHashFilePath (hash_utils.go): picks the ledger location from the
ENV_MODE environment variable. -/
def GetHashFilePath (envMode : String) : String :=
  if envMode = "test" then "test_hashes.csv" else "hashes.csv"

/-- CalculateFileHash (hash_utils.go): opens the file at filePath and
streams its content through SHA-256; the digest function is abstracted as
the parameter hash. -/
def CalculateFileHash (hash : String → String) (fs : String → PathInfo)
    (filePath : String) : Except Err String :=
  match fs filePath with
  | .file c => .ok (hash c)
  | _ => .error .openFailed

/-- LoadFileHashes (hash_utils.go): reads every ledger record into a Go map
keyed by path, so a later record for the same path overwrites the earlier
digest; the map is modelled as an association list built by upsert.  The
hash file creation performed by InitializeHashFile does not change the
record list and is a no-op in this model. -/
def LoadFileHashes (records : List (String × String)) :
    List (String × String) :=
  records.foldl (fun m r => upsert m r.1 r.2) []

/-- IsDuplicate (hash_utils.go): hashes the target file and scans the values
of the map returned by LoadFileHashes for that digest. -/
def IsDuplicate (hash : String → String) (fs : String → PathInfo)
    (records : List (String × String)) (filePath : String) :
    Except Err Bool :=
  match CalculateFileHash hash fs filePath with
  | .error e => .error e
  | .ok newHash => .ok ((LoadFileHashes records).any (fun e => e.2 == newHash))

/-- SaveFileHash (hash_utils.go): appends the (filePath, hash) record unless
IsDuplicate reports the content at filePath as already stored, in which case
the ledger is returned unchanged. -/
def SaveFileHash (hash : String → String) (fs : String → PathInfo)
    (records : List (String × String)) (filePath hashArg : String) :
    Except Err (List (String × String)) :=
  match IsDuplicate hash fs records filePath with
  | .error e => .error e
  | .ok true => .ok records
  | .ok false => .ok (records ++ [(filePath, hashArg)])

end utils

/- Size formatting and the audit-log writer. -/

namespace utils

/-- sizeDivisionsAux counts how many times the byte count can be divided by
1024 before falling below 1024, the loop of the size formatter, with an
explicit fuel argument so that the recursion is structural. -/
def sizeDivisionsAux : Nat → Nat → Nat
  | 0, _ => 0
  | fuel + 1, n => if n < 1024 then 0 else sizeDivisionsAux fuel (n / 1024) + 1

/-- Modelled from the spec: the definition of FormatFileSize is not under
src (only its callers in pd.go and the headerless CSV writer are).  Per the
spec it repeatedly divides by 1024 while the value is at least 1024; this is
the number of divisions performed.  The fuel n is sufficient because the
division count of n is below n. -/
def sizeDivisions (n : Nat) : Nat :=
  sizeDivisionsAux n n

/-- sizeUnits are the unit suffixes selected by the number of divisions. -/
def sizeUnits : List String :=
  ["B", "KB", "MB", "GB", "TB", "PB", "EB"]

/-- roundTenths n d is the number of tenths in n / d, rounded to nearest
with ties to even as Go fmt %.1f does. -/
def roundTenths (n d : Nat) : Nat :=
  let q := n * 10 / d
  let r := n * 10 % d
  if d < 2 * r then q + 1
  else if 2 * r < d then q
  else if q % 2 = 0 then q else q + 1

/-- renderTenths t u prints the value of t tenths with one decimal place
followed by the unit u. -/
def renderTenths (t : Nat) (u : String) : String :=
  toString (t / 10) ++ "." ++ toString (t % 10) ++ " " ++ u

/-- Modelled from the spec: FormatFileSize (called by pd.go uploadFile and
the headerless CSV writer, its own source missing from src) repeatedly
divides the byte count by 1024 while it is at least 1024, selects the unit
suffix matching the number of divisions, and renders with one decimal
place. -/
def FormatFileSize (n : Nat) : String :=
  renderTenths (roundTenths n (1024 ^ sizeDivisions n))
    (sizeUnits.getD (sizeDivisions n) "?")

/-- UploadInfo (the struct of the CSV writer; the headerless variant in
src/unnamed/part_002 adds the FormattedSize column, which pd.go fills). -/
structure UploadInfo where
  FileName : String
  DirectoryPath : String
  URL : String
  UploadDateTime : String
  FileSize : Nat
  FormattedSize : String
  MIMEType : String
  Uploader : String
  UploadStatus : String
deriving DecidableEq, Repr

/-- csvHeader is the fixed eight-column header row that the stale
SaveUploadInfoToCSV snapshot in pkg/pd/utils/csv_writer.go would write on an
empty store.  The program's live audit writer (src/unnamed/part_002, the
variant pd.go compiles against) never writes it; the constant is kept so
that theorems can state that no such row is produced. -/
def csvHeader : List String :=
  ["File Name", "Directory Path", "URL", "Upload Date and Time", "File Size",
   "MIME Type", "Uploader Username", "Upload Status"]

end utils

namespace unnamed

/-- csvRecord is the record row written by the SaveUploadInfoToCSV variant
in src/unnamed/part_002; its File Size column is the formatted size. -/
def csvRecord (info : utils.UploadInfo) : List String :=
  [info.FileName, info.DirectoryPath, info.URL, info.UploadDateTime,
   utils.FormatFileSize info.FileSize, info.MIMEType, info.Uploader,
   info.UploadStatus]

/-- SaveUploadInfoToCSV (src/unnamed/part_002): appends exactly one record
row and never writes a header; the File Size column is rendered through
FormatFileSize. -/
def SaveUploadInfoToCSV (info : utils.UploadInfo)
    (rows : List (List String)) : List (List String) :=
  rows ++ [csvRecord info]

end unnamed

/- Directory walker (GetFilesInDirectory, src/unnamed/part_001). -/

mutual
/-- Entry is a node of the modelled directory tree: a regular file with a
content, or a directory with children; broken marks a directory whose
enumeration fails when filepath.Walk descends into it. -/
inductive Entry where
  | file (name content : String)
  | dir (name : String) (broken : Bool) (children : EntryList)
/-- EntryList is the (enumeration-ordered) list of children of a
directory. -/
inductive EntryList where
  | nil
  | cons (e : Entry) (es : EntryList)
end

/-- Entry.name is the path component of the node. -/
def Entry.name : Entry → String
  | .file n _ => n
  | .dir n _ _ => n

mutual
/-- walkEntry models filepath.Walk visiting the node living at fullPath: a
regular file path is collected, a directory is traversed but never itself
collected, and a directory whose enumeration fails aborts the whole walk
with the error and no partial list. -/
def walkEntry (fullPath : String) : Entry → Except Err (List String)
  | .file _ _ => .ok [fullPath]
  | .dir _ broken cs =>
    if broken then .error .walkFailed else walkChildren fullPath cs
/-- walkChildren walks the children of the directory at dirPath in order,
stopping at the first error. -/
def walkChildren (dirPath : String) : EntryList → Except Err (List String)
  | .nil => .ok []
  | .cons e es =>
    match walkEntry (dirPath ++ "/" ++ e.name) e with
    | .error err => .error err
    | .ok l1 =>
      match walkChildren dirPath es with
      | .error err => .error err
      | .ok l2 => .ok (l1 ++ l2)
end

/-- GetFilesInDirectory (src/unnamed/part_001): filepath.Walk from the root
path, collecting exactly the non-directory paths; a missing root or any
enumeration failure yields the error and no file list. -/
def GetFilesInDirectory (root : Option Entry) (rootPath : String) :
    Except Err (List String) :=
  match root with
  | none => .error .walkFailed
  | some e => walkEntry rootPath e

mutual
/-- countFiles counts the regular-file nodes of the tree. -/
def countFiles : Entry → Nat
  | .file _ _ => 1
  | .dir _ _ cs => countFilesList cs
/-- countFilesList sums countFiles over a list of children. -/
def countFilesList : EntryList → Nat
  | .nil => 0
  | .cons e es => countFiles e + countFilesList es
end

mutual
/-- hasBroken reports whether some directory of the tree is marked as
failing enumeration. -/
def hasBroken : Entry → Bool
  | .file _ _ => false
  | .dir _ broken cs => broken || hasBrokenList cs
/-- hasBrokenList is hasBroken over a list of children. -/
def hasBrokenList : EntryList → Bool
  | .nil => false
  | .cons e es => hasBroken e || hasBrokenList es
end

mutual
/-- FileAt p t q says that the tree t, mounted at path p, contains a
regular-file node at full path q reachable by recursive descent; directory
nodes are traversed and never themselves satisfy it. -/
inductive FileAt : String → Entry → String → Prop where
  | file (p n c : String) : FileAt p (.file n c) p
  | dir (p n : String) (b : Bool) (cs : EntryList) (q : String) :
      FileAtList p cs q → FileAt p (.dir n b cs) q
/-- FileAtList is FileAt through some child of a directory at path p. -/
inductive FileAtList : String → EntryList → String → Prop where
  | head (p : String) (e : Entry) (es : EntryList) (q : String) :
      FileAt (p ++ "/" ++ e.name) e q → FileAtList p (.cons e es) q
  | tail (p : String) (e : Entry) (es : EntryList) (q : String) :
      FileAtList p es q → FileAtList p (.cons e es) q
end

/- Upload orchestrator (pkg/pd/pd.go). -/

/-- Auth carries the API key, as in pd_data. -/
structure Auth where
  APIKey : String
deriving DecidableEq, Repr

/-- RequestUpload models the upload request of pd.go: a file path or an
in-memory reader (File, its buffered bytes as a String), the file name, the
anonymous flag, an optional explicit URL, and the auth data. -/
structure RequestUpload where
  PathToFile : String := ""
  FileName : String := ""
  Anonymous : Bool := false
  URL : String := ""
  File : Option String := none
  auth : Auth := ⟨""⟩
deriving DecidableEq, Repr

/-- Resp is what one POST transmission that completed at the transport level
yields: the HTTP status code, and the decoded JSON body (its success flag
and file id), with parseOk false when the body fails to decode. -/
structure Resp where
  status : Nat
  success : Bool
  id : String
  parseOk : Bool
deriving DecidableEq, Repr

/-- ResponseUpload mirrors the response struct returned by UploadPOST. -/
structure ResponseUpload where
  Success : Bool := false
  StatusCode : Nat := 0
  Message : String := ""
  ID : String := ""
deriving DecidableEq, Repr

/-- GetFileURL builds the public file URL from the response id (pd_data,
behaviour fixed by the tests). -/
def GetFileURL (r : ResponseUpload) : String :=
  "https://pixeldrain.com/u/" ++ r.ID

/-- APIURL is the production API base URL constant of pd.go. -/
def APIURL : String := "https://pixeldrain.com/api"

/-- CSVFilePath is the audit-log location constant of pd.go. -/
def CSVFilePath : String := "upload_logs.csv"

/-- dupMessage is the duplicate-skip message of UploadPOST. -/
def dupMessage : String := "Duplicate file. Upload skipped."

/-- dupResponse is the synthetic outcome UploadPOST returns for a
duplicate: a conflict status marker and the human-readable message. -/
def dupResponse : ResponseUpload :=
  { Success := false, StatusCode := 409, Message := dupMessage, ID := "" }

/-- baseNameAux scans the path characters, restarting the accumulated
component at every slash, so the final component remains. -/
def baseNameAux : List Char → List Char → List Char
  | [], acc => acc
  | c :: rest, acc =>
    if c = '/' then baseNameAux rest [] else baseNameAux rest (acc ++ [c])

/-- baseName models filepath.Base: the last slash-separated component of
the path. -/
def baseName (p : String) : String :=
  String.mk (baseNameAux p.data [])

/-- resolvedURL is the URL uploadFile posts to: the request URL, defaulted
to the production file endpoint when empty. -/
def resolvedURL (r : RequestUpload) : String :=
  if r.URL = "" then APIURL ++ "/file" else r.URL

/-- Store is the persisted world the orchestrator mutates: the ledgers and
audit logs keyed by their store locations, plus the list of transmissions
performed so far (each the posted URL and file name), which lets theorems
state that no network call was made. -/
structure Store where
  ledgers : List (String × List (String × String))
  audits : List (String × List (List String))
  sent : List (String × String)
deriving DecidableEq, Repr

/-- Store.ledgerAt reads the ledger records persisted at loc. -/
def Store.ledgerAt (st : Store) (loc : String) : List (String × String) :=
  getTab st.ledgers loc []

/-- Store.auditAt reads the audit rows persisted at loc. -/
def Store.auditAt (st : Store) (loc : String) : List (List String) :=
  getTab st.audits loc []

/-- World bundles the external collaborators of the orchestrator: the
content digest function, the MIME sniffer, the clock reading, the modelled
file system, the transport (URL and file name to transport outcome), and
the directory walker. -/
structure World where
  hash : String → String
  mime : String → String
  now : String
  fs : String → PathInfo
  transmit : String → String → Except Unit Resp
  listFiles : String → Except Err (List String)

/-- uploadFileCore is the tail of uploadFile (pd.go 186-245) once the file
name, audit path column, size and MIME type are resolved: record the POST
transmission; on transport error or a JSON decode failure return the error;
otherwise build the response and, when an on-disk path is known (the audit
column is not the literal sentinel for a pathless reader), append one audit
row at CSVFilePath, hash the on-disk content and append it to the ledger at
hashFilePath through SaveFileHash. -/
def uploadFileCore (w : World) (r : RequestUpload) (hashFilePath : String)
    (fileName filePath : String) (fileSize : Nat) (mimeType : String)
    (st : Store) : Except Err ResponseUpload × Store :=
  let url := resolvedURL r
  let st1 : Store := { st with sent := st.sent ++ [(url, fileName)] }
  match w.transmit url fileName with
  | .error _ => (.error .transportFailed, st1)
  | .ok resp =>
    if resp.parseOk then
      let uploadRsp : ResponseUpload :=
        { Success := resp.success, StatusCode := resp.status, Message := "",
          ID := resp.id }
      if filePath = "N/A" then (.ok uploadRsp, st1)
      else
        let info : utils.UploadInfo :=
          { FileName := fileName, DirectoryPath := filePath,
            URL := GetFileURL uploadRsp, UploadDateTime := w.now,
            FileSize := fileSize,
            FormattedSize := utils.FormatFileSize fileSize,
            MIMEType := mimeType, Uploader := r.auth.APIKey,
            UploadStatus := toString resp.status }
        let st2 : Store :=
          { st1 with audits := (upsert st1.audits CSVFilePath
              (unnamed.SaveUploadInfoToCSV info (st1.auditAt CSVFilePath))) }
        match utils.CalculateFileHash w.hash w.fs filePath with
        | .error e => (.error e, st2)
        | .ok fileHash =>
          match utils.SaveFileHash w.hash w.fs (st2.ledgerAt hashFilePath)
              filePath fileHash with
          | .error e => (.error e, st2)
          | .ok newLedger =>
            (.ok uploadRsp,
             { st2 with ledgers := upsert st2.ledgers hashFilePath newLedger })
    else (.error .jsonFailed, st1)

/-- uploadFile (pd.go 129-246): with an in-memory reader the file name must
be given, the buffered bytes provide size and MIME type, and the audit path
column falls back to the sentinel when no path was supplied; with a path the
file is opened (failing if absent), and its base name, size and MIME type
are used. -/
def uploadFile (w : World) (r : RequestUpload) (hashFilePath : String)
    (st : Store) : Except Err ResponseUpload × Store :=
  match r.File with
  | some buf =>
    if r.FileName = "" then (.error .missingFilename, st)
    else
      let filePath := if r.PathToFile = "" then "N/A" else r.PathToFile
      uploadFileCore w r hashFilePath r.FileName filePath buf.length
        (w.mime buf) st
  | none =>
    match w.fs r.PathToFile with
    | .file c =>
      uploadFileCore w r hashFilePath (baseName r.PathToFile) r.PathToFile
        c.length (w.mime c) st
    | _ => (.error .openFailed, st)

/-- UploadPOSTFile is UploadPOST (pd.go 91-127) on a non-directory target:
reject a request with neither path nor reader; fail if the given path does
not stat; when a path is given, query IsDuplicate against the ledger at the
caller-passed hashFilePath and return the synthetic duplicate outcome
without any transmission when it holds; otherwise hand over to uploadFile.
The directory delegation of lines 97-106 lives in UploadPOST below; the
batch driver reaches this function directly because the walker only yields
regular files. -/
def UploadPOSTFile (w : World) (r : RequestUpload) (hashFilePath : String)
    (st : Store) : Except Err (Option ResponseUpload) × Store :=
  if r.PathToFile = "" ∧ r.File = none then (.error .missingPathToFile, st)
  else if r.PathToFile ≠ "" ∧ w.fs r.PathToFile = .missing then
    (.error .statFailed, st)
  else if r.PathToFile ≠ "" then
    match utils.IsDuplicate w.hash w.fs (st.ledgerAt hashFilePath)
        r.PathToFile with
    | .error e => (.error e, st)
    | .ok true => (.ok (some dupResponse), st)
    | .ok false =>
      match uploadFile w r hashFilePath st with
      | (.error e, st2) => (.error e, st2)
      | (.ok rsp, st2) => (.ok (some rsp), st2)
  else
    match uploadFile w r hashFilePath st with
    | (.error e, st2) => (.error e, st2)
    | (.ok rsp, st2) => (.ok (some rsp), st2)

/-- batchReq is the per-file request UploadDirectory builds (pd.go
704-709). -/
def batchReq (auth : Auth) (apiURL filePath : String) : RequestUpload :=
  { PathToFile := filePath, Anonymous := false, auth := auth,
    URL := apiURL ++ "/file" }

/-- processFiles is the sequential per-file loop of UploadDirectory (pd.go
703-719): each file goes through the single-file upload; the first error
stops the loop immediately and is returned. -/
def processFiles (w : World) (auth : Auth) (apiURL hashFilePath : String) :
    List String → Store → Except Err Unit × Store
  | [], st => (.ok (), st)
  | fp :: rest, st =>
    match UploadPOSTFile w (batchReq auth apiURL fp) hashFilePath st with
    | (.error e, st2) => (.error e, st2)
    | (.ok _, st2) => processFiles w auth apiURL hashFilePath rest st2

/-- apiOf resolves the variadic baseURL argument of UploadDirectory: the
first element when present, else the production API URL. -/
def apiOf (baseURL : Option String) : String :=
  match baseURL with
  | some b => b
  | none => APIURL

/-- UploadDirectory (pd.go 688-722): enumerate the files under the
directory, resolve the ledger location itself from the environment mode
flag via GetHashFilePath, and run the sequential loop; the optional
variadic argument is consumed as the API base URL. -/
def UploadDirectory (w : World) (envMode : String) (directoryPath : String)
    (auth : Auth) (baseURL : Option String) (st : Store) :
    Except Err Unit × Store :=
  match w.listFiles directoryPath with
  | .error e => (.error e, st)
  | .ok files =>
    processFiles w auth (apiOf baseURL) (utils.GetHashFilePath envMode)
      files st

/-- UploadPOST (pd.go 91-127), the public entry point: validate the input,
stat the path, delegate a directory whole to UploadDirectory - passing the
caller's hashFilePath as the variadic baseURL argument, exactly as the
source does - returning no response object for it, and otherwise run the
single-file flow. -/
def UploadPOST (w : World) (envMode : String) (r : RequestUpload)
    (hashFilePath : String) (st : Store) :
    Except Err (Option ResponseUpload) × Store :=
  if r.PathToFile = "" ∧ r.File = none then (.error .missingPathToFile, st)
  else if r.PathToFile ≠ "" ∧ w.fs r.PathToFile = .missing then
    (.error .statFailed, st)
  else if r.PathToFile ≠ "" ∧ w.fs r.PathToFile = .dir then
    match UploadDirectory w envMode r.PathToFile r.auth (some hashFilePath)
        st with
    | (.error e, st2) => (.error e, st2)
    | (.ok _, st2) => (.ok none, st2)
  else UploadPOSTFile w r hashFilePath st

/- Audit row abbreviation used by the orchestrator theorems. -/

/-- auditRow is the audit record row uploadFile appends for a path upload:
it is the row the headerless CSV writer produces from the UploadInfo that
uploadFile builds. -/
def auditRow (w : World) (r : RequestUpload) (resp : Resp)
    (filePath fileName : String) (size : Nat) (mimeType : String) :
    List String :=
  [fileName, filePath, "https://pixeldrain.com/u/" ++ resp.id, w.now,
   utils.FormatFileSize size, mimeType, r.auth.APIKey, toString resp.status]

/-- observe projects an upload outcome to what a caller and the shared
stores can see of it with respect to one ledger location: the returned
result, the ledger records at that location, the audit tables, and the
transmission list. -/
def observe (loc : String)
    (p : Except Err (Option ResponseUpload) × Store) :
    Except Err (Option ResponseUpload) × List (String × String) ×
      List (String × List (List String)) × List (String × String) :=
  (p.1, p.2.ledgerAt loc, p.2.audits, p.2.sent)

/-- observeF is observe for the intermediate result of uploadFile, whose
response is not yet wrapped in Option. -/
def observeF (loc : String) (p : Except Err ResponseUpload × Store) :
    Except Err ResponseUpload × List (String × String) ×
      List (String × List (List String)) × List (String × String) :=
  (p.1, p.2.ledgerAt loc, p.2.audits, p.2.sent)

/- Concrete instantiations used by counterexamples and witnesses. -/

/-- fsQ is a one-file file system: path q holds content d1. -/
def fsQ : String → PathInfo :=
  fun p => if p = "q" then .file "d1" else .missing

/-- W₁ is a world where path p currently holds content d2 and path q holds
content d1, digests are the contents themselves, and the transport answers
201 with a well-formed body. -/
def W₁ : World :=
  { hash := fun s => s, mime := fun _ => "m", now := "t",
    fs := fun p =>
      if p = "q" then .file "d1"
      else if p = "p" then .file "d2" else .missing,
    transmit := fun _ _ => .ok ⟨201, true, "mock-id", true⟩,
    listFiles := fun _ => .error .walkFailed }

/-- st₁ is a store whose ledger at hashes.csv holds two records for path p:
first digest d1, then digest d2, so d1 is shadowed by the map collapse. -/
def st₁ : Store :=
  ⟨[("hashes.csv", [("p", "d1"), ("p", "d2")])], [], []⟩

/-- r₁ uploads path q with an explicit URL u. -/
def r₁ : RequestUpload := { PathToFile := "q", URL := "u" }

/-- Wd is a world where path q holds content c1 and the transport answers
201. -/
def Wd : World :=
  { hash := fun s => s, mime := fun _ => "m", now := "t",
    fs := fun p => if p = "q" then .file "c1" else .missing,
    transmit := fun _ _ => .ok ⟨201, true, "mid", true⟩,
    listFiles := fun _ => .error .walkFailed }

/-- stD is a store whose ledger at hashes.csv already records digest c1
under path p. -/
def stD : Store :=
  ⟨[("hashes.csv", [("p", "c1")])], [], []⟩

/-- W₄ is a world where path q holds content c1 and the remote service
rejects the upload with status 500 (a well-formed error body). -/
def W₄ : World :=
  { hash := fun s => s, mime := fun _ => "m", now := "t",
    fs := fun p => if p = "q" then .file "c1" else .missing,
    transmit := fun _ _ => .ok ⟨500, false, "id5", true⟩,
    listFiles := fun _ => .error .walkFailed }

/-- st₀ is the empty store. -/
def st₀ : Store := ⟨[], [], []⟩

/-- W₅ is a world with three files under directory D whose transport fails
at the transport level exactly for file name fB. -/
def W₅ : World :=
  { hash := fun s => s, mime := fun _ => "m", now := "t",
    fs := fun p =>
      if p = "D" then .dir
      else if p = "D/fA" then .file "cA"
      else if p = "D/fB" then .file "cB"
      else if p = "D/fC" then .file "cC" else .missing,
    transmit := fun _ n => if n = "fB" then .error () else .ok ⟨201, true, "i", true⟩,
    listFiles := fun p =>
      if p = "D" then .ok ["D/fA", "D/fB", "D/fC"] else .error .walkFailed }

/-- A₅ is a concrete auth value. -/
def A₅ : Auth := ⟨"key"⟩

/-- W₉ is a world with one file D/f of content cc under directory D; the
walker lists it and the transport answers 201. -/
def W₉ : World :=
  { hash := fun s => s, mime := fun _ => "m", now := "t",
    fs := fun p =>
      if p = "D" then .dir
      else if p = "D/f" then .file "cc" else .missing,
    transmit := fun _ _ => .ok ⟨201, true, "i9", true⟩,
    listFiles := fun p => if p = "D" then .ok ["D/f"] else .error .walkFailed }

/-- st₉ is a store where the production ledger hashes.csv already records
digest cc while the test ledger test_hashes.csv is empty. -/
def st₉ : Store :=
  ⟨[("hashes.csv", [("x", "cc")]), ("test_hashes.csv", [])], [], []⟩

/-- rD is an upload request for the directory path D. -/
def rD : RequestUpload := { PathToFile := "D" }

/-- t₇ is a directory tree with three regular files spread over nested
subdirectories and no broken directory. -/
def t₇ : Entry :=
  .dir "r" false (.cons (.file "a" "ca")
    (.cons (.dir "s" false (.cons (.file "b" "cb")
      (.cons (.file "c" "cc") .nil))) .nil))

/-- infoA is a concrete audit record input. -/
def infoA : utils.UploadInfo :=
  ⟨"fA", "D/fA", "uA", "t", 3, "3.0 B", "m", "up", "201"⟩

/-- infoB is a second concrete audit record input. -/
def infoB : utils.UploadInfo :=
  ⟨"fB", "D/fB", "uB", "t", 5, "5.0 B", "m", "up", "500"⟩

/- Lemmas about the map collapse performed by LoadFileHashes. -/

theorem mem_upsert {α : Type} (m : List (String × α)) (p k : String)
    (d v : α) :
    (k, v) ∈ upsert m p d ↔ (k = p ∧ v = d) ∨ (k ≠ p ∧ (k, v) ∈ m) := by
  unfold upsert
  by_cases hp : m.any (fun e => e.1 == p) = true
  · rw [if_pos hp]
    simp only [List.mem_map]
    constructor
    · rintro ⟨⟨k1, v1⟩, he, heq⟩
      by_cases hk1 : k1 = p
      · rw [if_pos (by simpa using hk1)] at heq
        injection heq with h1 h2
        exact Or.inl ⟨h1.symm, h2.symm⟩
      · rw [if_neg (by simpa using hk1)] at heq
        injection heq with h1 h2
        subst h1; subst h2
        exact Or.inr ⟨hk1, he⟩
    · rintro (⟨hk, hv⟩ | ⟨hk, hmem⟩)
      · subst hk; subst hv
        rw [List.any_eq_true] at hp
        obtain ⟨⟨k1, v1⟩, he, hbeq⟩ := hp
        rw [beq_iff_eq] at hbeq
        subst hbeq
        exact ⟨(k1, v1), he, by simp⟩
      · exact ⟨(k, v), hmem, by simp [hk]⟩
  · rw [if_neg hp]
    simp only [List.mem_append, List.mem_singleton]
    constructor
    · rintro (hmem | heq)
      · refine Or.inr ⟨?_, hmem⟩
        intro hk
        exact hp (List.any_eq_true.mpr ⟨(k, v), hmem, by simp [hk]⟩)
      · injection heq with h1 h2
        exact Or.inl ⟨h1, h2⟩
    · rintro (⟨hk, hv⟩ | ⟨_, hmem⟩)
      · subst hk; subst hv
        exact Or.inr rfl
      · exact Or.inl hmem

theorem lastLookup_append (L : List (String × String)) (p d k : String) :
    lastLookup (L ++ [(p, d)]) k =
      if k = p then some d else lastLookup L k := by
  unfold lastLookup
  rw [List.reverse_append, List.reverse_singleton, List.singleton_append]
  by_cases hk : k = p
  · rw [List.find?_cons_of_pos _ (by simp [hk]), if_pos hk]
    rfl
  · rw [List.find?_cons_of_neg _ (by simp [Ne.symm hk]), if_neg hk]

theorem LoadFileHashes_append (L : List (String × String))
    (e : String × String) :
    utils.LoadFileHashes (L ++ [e]) =
      upsert (utils.LoadFileHashes L) e.1 e.2 := by
  unfold utils.LoadFileHashes
  rw [List.foldl_append]
  rfl

theorem mem_LoadFileHashes (L : List (String × String)) (k v : String) :
    (k, v) ∈ utils.LoadFileHashes L ↔ lastLookup L k = some v := by
  induction L using List.reverseRecOn with
  | nil => simp [utils.LoadFileHashes, lastLookup]
  | append_singleton L e ih =>
    obtain ⟨p, d⟩ := e
    rw [LoadFileHashes_append, mem_upsert, lastLookup_append]
    by_cases hk : k = p
    · subst hk
      simp [ih, eq_comm]
    · simp [hk, ih]

theorem lastLookup_mem (L : List (String × String)) (k v : String)
    (h : lastLookup L k = some v) : (k, v) ∈ L := by
  unfold lastLookup at h
  cases hf : L.reverse.find? (fun e => e.1 == k) with
  | none => rw [hf] at h; simp at h
  | some e =>
    rw [hf] at h
    have he : e ∈ L.reverse := List.mem_of_find?_eq_some hf
    have hk := List.find?_some hf
    simp only [beq_iff_eq] at hk
    obtain ⟨e1, e2⟩ := e
    simp only [Option.map_some'] at h
    injection h with h2
    simp only at hk h2
    subst hk; subst h2
    exact List.mem_reverse.mp he

theorem storedDigest_iff (L : List (String × String)) (h : String) :
    storedDigest L h ↔ ∃ k, lastLookup L k = some h := by
  constructor
  · rintro ⟨e, _, hlast⟩
    exact ⟨e.1, hlast⟩
  · rintro ⟨k, hlast⟩
    exact ⟨(k, h), lastLookup_mem L k h hlast, hlast⟩

theorem any_LoadFileHashes (L : List (String × String)) (h : String) :
    ((utils.LoadFileHashes L).any (fun e => e.2 == h) = true) ↔
      storedDigest L h := by
  rw [List.any_eq_true, storedDigest_iff]
  constructor
  · rintro ⟨⟨k, v⟩, he, hbeq⟩
    rw [beq_iff_eq] at hbeq
    subst hbeq
    exact ⟨k, (mem_LoadFileHashes L k v).mp he⟩
  · rintro ⟨k, hk⟩
    exact ⟨(k, h), (mem_LoadFileHashes L k h).mpr hk, by simp⟩

theorem IsDuplicate_eq (hash : String → String) (fs : String → PathInfo)
    (path c : String) (hf : fs path = .file c)
    (L : List (String × String)) :
    utils.IsDuplicate hash fs L path =
      .ok (decide (storedDigest L (hash c))) := by
  unfold utils.IsDuplicate utils.CalculateFileHash
  rw [hf]
  show Except.ok ((utils.LoadFileHashes L).any fun e => e.2 == hash c) =
    Except.ok (decide (storedDigest L (hash c)))
  congr 1
  by_cases hd : storedDigest L (hash c)
  · rw [decide_eq_true hd, (any_LoadFileHashes L (hash c)).mpr hd]
  · rw [decide_eq_false hd, ← Bool.not_eq_true, any_LoadFileHashes]
    exact hd

theorem CalculateFileHash_eq (hash : String → String)
    (fs : String → PathInfo) (path c : String) (hf : fs path = .file c) :
    utils.CalculateFileHash hash fs path = .ok (hash c) := by
  unfold utils.CalculateFileHash
  rw [hf]

theorem SaveFileHash_eq (hash : String → String) (fs : String → PathInfo)
    (path c : String) (hf : fs path = .file c)
    (L : List (String × String)) (d : String) :
    utils.SaveFileHash hash fs L path d =
      .ok (if storedDigest L (hash c) then L else L ++ [(path, d)]) := by
  unfold utils.SaveFileHash
  rw [IsDuplicate_eq hash fs path c hf L]
  by_cases hd : storedDigest L (hash c)
  · rw [decide_eq_true hd, if_pos hd]
  · rw [decide_eq_false hd, if_neg hd]

/- Lemmas about the keyed store tables. -/

theorem find?_map_keyfix {α : Type} (es : List (String × α))
    (k k' : String) (v : α) (hk : k' ≠ k) :
    (es.map (fun e => if e.1 == k then (k, v) else e)).find?
        (fun e => e.1 == k') =
      es.find? (fun e => e.1 == k') := by
  induction es with
  | nil => rfl
  | cons e es ih =>
    by_cases he : e.1 = k
    · rw [List.map_cons, if_pos (by simpa using he)]
      rw [List.find?_cons_of_neg _ (by simpa using Ne.symm hk),
        List.find?_cons_of_neg _ (by simp [he, Ne.symm hk])]
      exact ih
    · rw [List.map_cons, if_neg (by simpa using he)]
      by_cases hek : e.1 = k'
      · rw [List.find?_cons_of_pos _ (by simpa using hek),
          List.find?_cons_of_pos _ (by simpa using hek)]
      · rw [List.find?_cons_of_neg _ (by simpa using hek),
          List.find?_cons_of_neg _ (by simpa using hek)]
        exact ih

theorem upsert_cons_ne {α : Type} (e : String × α)
    (es : List (String × α)) (k : String) (v : α) (he : e.1 ≠ k) :
    upsert (e :: es) k v = e :: upsert es k v := by
  unfold upsert
  rw [List.any_cons]
  rw [show (e.1 == k) = false by simpa using he]
  simp only [Bool.false_or]
  by_cases hc : es.any (fun x => x.1 == k) = true
  · rw [if_pos hc, if_pos hc, List.map_cons,
      if_neg (by simpa using he)]
  · rw [if_neg hc, if_neg hc]
    rfl

theorem getTab_upsert {α : Type} (t : List (String × α)) (k k' : String)
    (v : α) (d : α) :
    getTab (upsert t k v) k' d = if k' = k then v else getTab t k' d := by
  induction t with
  | nil =>
    show getTab [(k, v)] k' d = if k' = k then v else getTab [] k' d
    unfold getTab
    by_cases hk : k' = k
    · rw [List.find?_cons_of_pos _ (by simp [hk]), if_pos hk]
    · rw [List.find?_cons_of_neg _ (by simp [Ne.symm hk]), if_neg hk]
  | cons e es ih =>
    by_cases he : e.1 = k
    · have hany : ((e :: es).any fun x => x.1 == k) = true := by
        rw [List.any_cons]
        simp [he]
      unfold upsert
      rw [if_pos hany, List.map_cons, if_pos (by simpa using he)]
      unfold getTab
      by_cases hk : k' = k
      · rw [List.find?_cons_of_pos _ (by simp [hk]), if_pos hk]
      · have hek' : ¬(e.1 = k') := by
          rw [he]
          exact Ne.symm hk
        rw [List.find?_cons_of_neg _ (by simp [Ne.symm hk]), if_neg hk,
          find?_map_keyfix es k k' v hk,
          List.find?_cons_of_neg _ (by simp [hek'])]
    · rw [upsert_cons_ne e es k v he]
      by_cases hek : e.1 = k'
      · have hkk : ¬(k' = k) := by
          rw [← hek]
          exact he
        unfold getTab
        rw [List.find?_cons_of_pos _ (by simp [hek]),
          List.find?_cons_of_pos _ (by simp [hek]), if_neg hkk]
      · unfold getTab
        rw [List.find?_cons_of_neg _ (by simp [hek]),
          List.find?_cons_of_neg _ (by simp [hek])]
        exact ih

theorem getTab_upsert_self {α : Type} (t : List (String × α)) (k : String)
    (v : α) (d : α) : getTab (upsert t k v) k d = v := by
  rw [getTab_upsert, if_pos rfl]

theorem getTab_upsert_ne {α : Type} (t : List (String × α)) (k k' : String)
    (v : α) (d : α) (h : k' ≠ k) :
    getTab (upsert t k v) k' d = getTab t k' d := by
  rw [getTab_upsert, if_neg h]

/- Claim C2: content of the duplicate query. -/

/-- C2, counterexample: the claim says IsDuplicate is true exactly when the
computed digest equals some digest stored in any persisted ledger record,
including a digest whose path was later re-appended with a different digest.
In the ledger holding (p, d1) then (p, d2), the record digest d1 is present,
the file at q has digest d1, yet IsDuplicate answers false, because the
code scans only the values of the path-keyed map, where d2 overwrote d1. -/
theorem c2_counterexample :
    utils.IsDuplicate (fun s => s) fsQ [("p", "d1"), ("p", "d2")] "q" =
      .ok false ∧
    ("p", "d1") ∈ [("p", "d1"), ("p", "d2")] ∧ fsQ "q" = .file "d1" := by
  decide

/-- C2 (amended): IsDuplicate answers true exactly when the digest of the
content at the queried path equals the digest that survives the per-path
last-write-wins collapse of the ledger for some path, regardless of which
path it was recorded under. -/
theorem c2_isDuplicate_content_query (hash : String → String)
    (fs : String → PathInfo) (path c : String) (hf : fs path = .file c)
    (L : List (String × String)) :
    utils.IsDuplicate hash fs L path = .ok true ↔
      ∃ k, lastLookup L k = some (hash c) := by
  rw [IsDuplicate_eq hash fs path c hf L, ← storedDigest_iff]
  constructor
  · intro h
    injection h with h1
    exact of_decide_eq_true h1
  · intro h
    rw [decide_eq_true h]

/-- C2, witness: in the one-record ledger (p, d1) the file at q, whose
digest is d1, is reported as a duplicate. -/
theorem c2_isDuplicate_content_query_w :
    utils.IsDuplicate (fun s => s) fsQ [("p", "d1")] "q" = .ok true :=
  (c2_isDuplicate_content_query (fun s => s) fsQ "q" "d1" rfl
    [("p", "d1")]).mpr ⟨"p", rfl⟩

/- Claim C3: the ledger append operation. -/

/-- C3, counterexample: the claim says the append operation appends exactly
one record without any duplicate check.  With the ledger holding (p, d1)
and the file at q having digest d1, SaveFileHash performs its own duplicate
check, appends nothing, and leaves the store unchanged. -/
theorem c3_counterexample :
    utils.SaveFileHash (fun s => s) fsQ [("p", "d1")] "q" "d1" =
      .ok [("p", "d1")] ∧
    (.ok [("p", "d1")] : Except Err (List (String × String))) ≠
      .ok [("p", "d1"), ("q", "d1")] := by
  decide

/-- C3 (amended): SaveFileHash performs its own duplicate check and appends
the single (path, digest) record exactly when the digest of the content at
path does not survive the per-path collapse of the stored records;
otherwise it appends nothing and the store is unchanged.  Uniqueness is
still not enforced on either column: a path whose content changed appends a
second record under the same path, and a digest shadowed by the collapse
can be appended again. -/
theorem c3_saveFileHash_append_unless_stored (hash : String → String)
    (fs : String → PathInfo) (path c : String) (hf : fs path = .file c)
    (L : List (String × String)) (d : String) :
    utils.SaveFileHash hash fs L path d =
      .ok (if storedDigest L (hash c) then L else L ++ [(path, d)]) :=
  SaveFileHash_eq hash fs path c hf L d

/-- C3, witness: on an empty ledger the record is appended; the appended
digest is the passed argument. -/
theorem c3_saveFileHash_append_unless_stored_w :
    utils.SaveFileHash (fun s => s) fsQ [] "q" "zz" = .ok [("q", "zz")] := by
  have h := c3_saveFileHash_append_unless_stored (fun s => s) fsQ "q" "d1"
    rfl [] "zz"
  rw [if_neg (by decide)] at h
  exact h

/- Claim C6: the audit-log append operation. -/

theorem foldl_unnamed_saveCSV (infos : List utils.UploadInfo)
    (rows : List (List String)) :
    infos.foldl (fun rs i => unnamed.SaveUploadInfoToCSV i rs) rows =
      rows ++ infos.map unnamed.csvRecord := by
  induction infos generalizing rows with
  | nil => simp
  | cons i rest ih =>
    rw [List.foldl_cons,
      show unnamed.SaveUploadInfoToCSV i rows =
        rows ++ [unnamed.csvRecord i] from rfl,
      ih, List.map_cons, List.append_assoc]
    rfl

/-- C6, counterexample: the claim says the audit append writes the fixed
eight-column header first if and only if the store is empty, then one
record row, so one upload from empty yields two rows.  The program's live
audit writer - the headerless variant of src/unnamed/part_002, the only one
consistent with the UploadInfo literal pd.go builds - appends exactly one
row to the empty store, that row is not the header, and the result differs
from the header-then-record shape the claim requires. -/
theorem c6_counterexample :
    unnamed.SaveUploadInfoToCSV infoA [] = [unnamed.csvRecord infoA] ∧
    (unnamed.SaveUploadInfoToCSV infoA []).length = 1 ∧
    unnamed.csvRecord infoA ≠ utils.csvHeader ∧
    unnamed.SaveUploadInfoToCSV infoA [] ≠
      [utils.csvHeader, unnamed.csvRecord infoA] := by
  refine ⟨rfl, rfl, by decide, by decide⟩

/-- C6 (amended): every call to the live audit-log append operation opens
the store at the log location (creating it if absent; an absent store and
an empty one are the same row list here) and appends exactly one record
row; no header row is ever written, so N sequential successful uploads
starting from an empty store produce exactly N rows - the N records, with
no header. -/
theorem c6_audit_headerless_rows :
    (∀ info rows, unnamed.SaveUploadInfoToCSV info rows =
      rows ++ [unnamed.csvRecord info]) ∧
    (∀ infos : List utils.UploadInfo,
      infos.foldl (fun rs i => unnamed.SaveUploadInfoToCSV i rs) [] =
        infos.map unnamed.csvRecord) ∧
    (∀ infos : List utils.UploadInfo,
      (infos.foldl (fun rs i => unnamed.SaveUploadInfoToCSV i rs) []).length =
        infos.length) :=
  ⟨fun _ _ => rfl,
   fun infos => by rw [foldl_unnamed_saveCSV infos []]; rfl,
   fun infos => by rw [foldl_unnamed_saveCSV infos []]; simp⟩

/-- C6, witness: two appends from the empty store produce exactly the two
record rows and nothing else. -/
theorem c6_audit_headerless_rows_w :
    [infoA, infoB].foldl (fun rs i => unnamed.SaveUploadInfoToCSV i rs) [] =
      [unnamed.csvRecord infoA, unnamed.csvRecord infoB] := by
  rw [c6_audit_headerless_rows.2.1 [infoA, infoB]]
  rfl

/- Claim C8: the formatted size written by the headerless audit writer. -/

theorem sizeDivisionsAux_spec : ∀ (k fuel n : Nat), 1024 ^ k ≤ n →
    n < 1024 ^ (k + 1) → k < fuel → utils.sizeDivisionsAux fuel n = k := by
  intro k
  induction k with
  | zero =>
    intro fuel n h1 h2 h3
    cases fuel with
    | zero => omega
    | succ f =>
      simp only [utils.sizeDivisionsAux]
      rw [if_pos (by simpa using h2)]
  | succ k ih =>
    intro fuel n h1 h2 h3
    cases fuel with
    | zero => omega
    | succ f =>
      simp only [utils.sizeDivisionsAux]
      have hge : ¬(n < 1024) := by
        push_neg
        calc (1024 : Nat) = 1024 ^ 1 := (pow_one 1024).symm
        _ ≤ 1024 ^ (k + 1) := Nat.pow_le_pow_right (by norm_num) (by omega)
        _ ≤ n := h1
      rw [if_neg hge]
      have hdiv1 : 1024 ^ k ≤ n / 1024 := by
        rw [Nat.le_div_iff_mul_le (by norm_num)]
        calc 1024 ^ k * 1024 = 1024 ^ (k + 1) := by rw [pow_succ]
        _ ≤ n := h1
      have hdiv2 : n / 1024 < 1024 ^ (k + 1) := by
        rw [Nat.div_lt_iff_lt_mul (by norm_num)]
        calc n < 1024 ^ (k + 1 + 1) := h2
        _ = 1024 ^ (k + 1) * 1024 := by rw [pow_succ]
      rw [ih f (n / 1024) hdiv1 hdiv2 (by omega)]

theorem sizeDivisions_spec (n k : Nat) (h1 : 1024 ^ k ≤ n)
    (h2 : n < 1024 ^ (k + 1)) : utils.sizeDivisions n = k := by
  unfold utils.sizeDivisions
  have hk : k < n := lt_of_lt_of_le (Nat.lt_pow_self (by norm_num) k) h1
  exact sizeDivisionsAux_spec k n n h1 h2 hk

theorem sizeDivisions_small (n : Nat) (h : n < 1024) :
    utils.sizeDivisions n = 0 := by
  unfold utils.sizeDivisions
  cases n with
  | zero => rfl
  | succ m =>
    simp only [utils.sizeDivisionsAux]
    rw [if_pos h]

/-- C8: the headerless audit writer appends one row whose File Size column
is FormatFileSize of the byte count; the number of divisions performed by
FormatFileSize is the k with 1024 pow k ≤ n < 1024 pow (k+1) (0 for small
counts), which selects the unit suffix; and the literal cases of the spec
hold: 1536 renders as 1.5 KB and 0 renders as 0.0 B.  FormatFileSize itself
is modelled from the spec because its source is absent from src. -/
theorem c8_formatted_size :
    (∀ info rows, unnamed.SaveUploadInfoToCSV info rows =
      rows ++ [unnamed.csvRecord info]) ∧
    (∀ info, (unnamed.csvRecord info).getD 4 "" =
      utils.FormatFileSize info.FileSize) ∧
    (∀ n k, 1024 ^ k ≤ n → n < 1024 ^ (k + 1) →
      utils.sizeDivisions n = k) ∧
    (∀ n, n < 1024 → utils.sizeDivisions n = 0) ∧
    utils.FormatFileSize 1536 = "1.5 KB" ∧
    utils.FormatFileSize 0 = "0.0 B" :=
  ⟨fun _ _ => rfl, fun _ => rfl,
   fun n k h1 h2 => sizeDivisions_spec n k h1 h2,
   fun n h => sizeDivisions_small n h, by decide, by decide⟩

/-- C8, witness: one mebibyte is divided twice, selecting the MB unit
index. -/
theorem c8_formatted_size_w : utils.sizeDivisions 1048576 = 2 :=
  c8_formatted_size.2.2.1 1048576 2 (by norm_num) (by norm_num)

/- Claim C7: the directory walker. -/

mutual
theorem walkEntry_hasBroken (t : Entry) (p : String)
    (h : hasBroken t = true) :
    ∃ er, walkEntry p t = .error er := by
  match t with
  | .file n c => simp [hasBroken] at h
  | .dir n b cs =>
    cases hb : b with
    | true => exact ⟨.walkFailed, by unfold walkEntry; rw [if_pos rfl]⟩
    | false =>
      subst hb
      unfold hasBroken at h
      simp only [Bool.false_or] at h
      obtain ⟨er, her⟩ := walkChildren_hasBroken cs p h
      exact ⟨er, by unfold walkEntry; rw [if_neg (by simp)]; exact her⟩
theorem walkChildren_hasBroken (cs : EntryList) (p : String)
    (h : hasBrokenList cs = true) :
    ∃ er, walkChildren p cs = .error er := by
  match cs with
  | .nil => simp [hasBrokenList] at h
  | .cons e es =>
    unfold hasBrokenList at h
    rw [Bool.or_eq_true] at h
    by_cases hb : hasBroken e = true
    · obtain ⟨er, her⟩ := walkEntry_hasBroken e (p ++ "/" ++ e.name) hb
      exact ⟨er, by unfold walkChildren; rw [her]⟩
    · have hes : hasBrokenList es = true := by
        rcases h with h | h
        · exact absurd h hb
        · exact h
      obtain ⟨er, her⟩ := walkChildren_hasBroken es p hes
      cases hwe : walkEntry (p ++ "/" ++ e.name) e with
      | error err => exact ⟨err, by unfold walkChildren; rw [hwe]⟩
      | ok l1 =>
        exact ⟨er, by unfold walkChildren; rw [hwe, her]⟩
end

mutual
theorem walkEntry_ok_spec (t : Entry) (p : String) (l : List String)
    (h : walkEntry p t = .ok l) :
    l.length = countFiles t ∧ ∀ q, q ∈ l ↔ FileAt p t q := by
  match t with
  | .file n c =>
    unfold walkEntry at h
    injection h with h1
    subst h1
    refine ⟨rfl, fun q => ?_⟩
    constructor
    · intro hq
      rw [List.mem_singleton] at hq
      subst hq
      exact FileAt.file q n c
    · intro hq
      cases hq
      exact List.mem_singleton.mpr rfl
  | .dir n b cs =>
    cases hb : b with
    | true =>
      subst hb
      unfold walkEntry at h
      rw [if_pos rfl] at h
      exact absurd h (by simp)
    | false =>
      subst hb
      unfold walkEntry at h
      rw [if_neg (by simp)] at h
      obtain ⟨hlen, hmem⟩ := walkChildren_ok_spec cs p l h
      refine ⟨hlen, fun q => ?_⟩
      rw [hmem q]
      constructor
      · intro hq
        exact FileAt.dir p n false cs q hq
      · intro hq
        cases hq
        assumption
theorem walkChildren_ok_spec (cs : EntryList) (p : String) (l : List String)
    (h : walkChildren p cs = .ok l) :
    l.length = countFilesList cs ∧ ∀ q, q ∈ l ↔ FileAtList p cs q := by
  match cs with
  | .nil =>
    unfold walkChildren at h
    injection h with h1
    subst h1
    refine ⟨rfl, fun q => ?_⟩
    constructor
    · intro hq
      exact absurd hq (List.not_mem_nil q)
    · intro hq
      cases hq
  | .cons e es =>
    unfold walkChildren at h
    cases hwe : walkEntry (p ++ "/" ++ e.name) e with
    | error err => rw [hwe] at h; exact absurd h (by simp)
    | ok l1 =>
      rw [hwe] at h
      cases hwc : walkChildren p es with
      | error err => rw [hwc] at h; exact absurd h (by simp)
      | ok l2 =>
        rw [hwc] at h
        injection h with h1
        subst h1
        obtain ⟨hlen1, hmem1⟩ := walkEntry_ok_spec e (p ++ "/" ++ e.name) l1 hwe
        obtain ⟨hlen2, hmem2⟩ := walkChildren_ok_spec es p l2 hwc
        refine ⟨by rw [List.length_append, hlen1, hlen2]; rfl, fun q => ?_⟩
        rw [List.mem_append, hmem1 q, hmem2 q]
        constructor
        · rintro (hq | hq)
          · exact FileAtList.head p e es q hq
          · exact FileAtList.tail p e es q hq
        · intro hq
          cases hq with
          | head _ _ _ _ hq => exact Or.inl hq
          | tail _ _ _ _ hq => exact Or.inr hq
end

/-- C7: the directory walker returns exactly the regular files reachable by
recursive descent - the list has one path per regular-file node (so a tree
with 3 regular files yields 3 paths) and contains precisely the reachable
regular-file paths, directories never among them - and any enumeration
failure during descent (a broken directory anywhere in the tree, or a
missing root) yields an error with no partial list. -/
theorem c7_walker (t : Entry) (p : String) :
    (hasBroken t = true →
      ∃ er, GetFilesInDirectory (some t) p = .error er) ∧
    (∀ l, GetFilesInDirectory (some t) p = .ok l →
      l.length = countFiles t ∧ ∀ q, q ∈ l ↔ FileAt p t q) ∧
    GetFilesInDirectory none p = .error .walkFailed :=
  ⟨fun h => walkEntry_hasBroken t p h,
   fun l h => walkEntry_ok_spec t p l h, rfl⟩

/-- C7, witness: the concrete tree with 3 regular files across nested
subdirectories yields exactly the 3 file paths. -/
theorem c7_walker_w :
    GetFilesInDirectory (some t₇) "r" = .ok ["r/a", "r/s/b", "r/s/c"] ∧
    (["r/a", "r/s/b", "r/s/c"] : List String).length = countFiles t₇ :=
  ⟨rfl, ((c7_walker t₇ "r").2.1 ["r/a", "r/s/b", "r/s/c"] rfl).1⟩

theorem ledgerAt_mk (l : List (String × List (String × String)))
    (a : List (String × List (List String)))
    (s : List (String × String)) (loc : String) :
    Store.ledgerAt ⟨l, a, s⟩ loc = getTab l loc [] := rfl

/- Claim C1: the duplicate-skip path of UploadPOST. -/

/-- C1, counterexample: the claim says every file whose content digest
already appears in the persisted ledger is skipped with 409 and no
transmission.  In the ledger holding the records (p, d1) then (p, d2) the
digest d1 appears, the file at q has digest d1, yet UploadPOST transmits
it: the response carries the transport status 201, the transmission list
grows, and the ledger and audit log are written - because the duplicate
query only sees digests surviving the per-path map collapse, where d2
overwrote d1. -/
theorem c1_counterexample :
    ("p", "d1") ∈ st₁.ledgerAt "hashes.csv" ∧
    W₁.fs "q" = .file "d1" ∧ W₁.hash "d1" = "d1" ∧
    UploadPOSTFile W₁ r₁ "hashes.csv" st₁ =
      (.ok (some { Success := true, StatusCode := 201, Message := "",
                   ID := "mock-id" }),
       ⟨[("hashes.csv", [("p", "d1"), ("p", "d2"), ("q", "d1")])],
        [(CSVFilePath,
          [["q", "q", "https://pixeldrain.com/u/mock-id", "t", "2.0 B",
            "m", "", "201"]])],
        [("u", "q")]⟩) := by
  refine ⟨by decide, rfl, rfl, ?_⟩
  rfl

/-- C1 (amended): for every file whose content digest survives the
per-path last-write-wins collapse of the persisted ledger at the resolved
location (it is the most recent digest recorded for some path), a second
UploadPOST call for that content - under the same or a different path -
returns the synthetic Skipped outcome carrying the conflict marker 409 and
the duplicate message, makes no transmission call, and leaves the whole
store (ledger and audit log included) unchanged. -/
theorem c1_second_upload_skipped (w : World) (r : RequestUpload)
    (loc : String) (st : Store) (c : String)
    (hp : r.PathToFile ≠ "")
    (hf : w.fs r.PathToFile = .file c)
    (hd : storedDigest (st.ledgerAt loc) (w.hash c)) :
    UploadPOSTFile w r loc st = (.ok (some dupResponse), st) ∧
    dupResponse.StatusCode = 409 ∧ dupResponse.Message = dupMessage := by
  refine ⟨?_, rfl, rfl⟩
  unfold UploadPOSTFile
  rw [if_neg (fun h => hp h.1),
    if_neg (fun h => by rw [hf] at h; exact absurd h.2 (by simp)),
    if_pos hp, IsDuplicate_eq w.hash w.fs r.PathToFile c hf
      (st.ledgerAt loc), decide_eq_true hd]

/-- C1, witness: with the ledger recording digest c1 under path p, the
upload of path q holding content c1 is skipped and the store untouched. -/
theorem c1_second_upload_skipped_w :
    UploadPOSTFile Wd { PathToFile := "q" } "hashes.csv" stD =
      (.ok (some dupResponse), stD) :=
  (c1_second_upload_skipped Wd { PathToFile := "q" } "hashes.csv" stD "c1"
    (by decide) rfl (by decide)).1

/- Claim C10: stream uploads are neither deduplicated nor recorded. -/

/-- C10: a request supplying the content only as an in-memory reader (File
set, PathToFile empty) performs no duplicate query - whatever the ledger
holds, even the very digest of the buffered content, the transmission is
made - and after the transmission completes nothing is appended: the final
store differs from the initial one only by the recorded transmission, for
every ledger and audit state. -/
theorem c10_stream_uploads (w : World) (r : RequestUpload) (loc : String)
    (st : Store) (buf : String) (resp : Resp)
    (hfile : r.File = some buf) (hp : r.PathToFile = "")
    (hn : r.FileName ≠ "")
    (ht : w.transmit (resolvedURL r) r.FileName = .ok resp)
    (hparse : resp.parseOk = true) :
    UploadPOSTFile w r loc st =
      (.ok (some { Success := resp.success, StatusCode := resp.status,
                   Message := "", ID := resp.id }),
       { st with sent := st.sent ++ [(resolvedURL r, r.FileName)] }) := by
  unfold UploadPOSTFile uploadFile uploadFileCore
  simp only [hfile, hp, hn, ht, hparse]
  simp

/-- C10, witness: even though the ledger records the digest of the
buffered content c1 (under path p), the stream upload transmits and leaves
the ledger and audit log untouched. -/
theorem c10_stream_uploads_w :
    UploadPOSTFile Wd { File := some "c1", FileName := "n" } "hashes.csv"
        stD =
      (.ok (some { Success := true, StatusCode := 201, Message := "",
                   ID := "mid" }),
       { stD with sent := [(APIURL ++ "/file", "n")] }) :=
  c10_stream_uploads Wd { File := some "c1", FileName := "n" } "hashes.csv"
    stD "c1" ⟨201, true, "mid", true⟩ rfl rfl (by decide) rfl rfl

/- Claim C4: transport success records unconditionally. -/

/-- C4: an upload of an on-disk path that reaches the remote service and
completes at the transport level with a well-formed response - whatever
the HTTP status code, remote-side failure statuses included - appends
exactly one audit row at the audit location and exactly one (path, digest)
record to the ledger at the resolved location, so content rejected by the
remote service is still marked as already sent.  The transmission requires
the content not to be a stored duplicate (otherwise UploadPOST skips), and
the path must differ from the literal audit sentinel string N/A, which the
code uses to mark pathless uploads. -/
theorem c4_recorded_regardless_of_status (w : World) (r : RequestUpload)
    (loc : String) (st : Store) (c : String) (resp : Resp)
    (hfile : r.File = none) (hp : r.PathToFile ≠ "")
    (hNA : r.PathToFile ≠ "N/A")
    (hf : w.fs r.PathToFile = .file c)
    (hnd : ¬ storedDigest (st.ledgerAt loc) (w.hash c))
    (ht : w.transmit (resolvedURL r) (baseName r.PathToFile) = .ok resp)
    (hparse : resp.parseOk = true) :
    UploadPOSTFile w r loc st =
      (.ok (some { Success := resp.success, StatusCode := resp.status,
                   Message := "", ID := resp.id }),
       { st with
         sent := st.sent ++ [(resolvedURL r, baseName r.PathToFile)],
         audits := upsert st.audits CSVFilePath
           (st.auditAt CSVFilePath ++
             [auditRow w r resp r.PathToFile (baseName r.PathToFile)
               c.length (w.mime c)]),
         ledgers := upsert st.ledgers loc
           (st.ledgerAt loc ++ [(r.PathToFile, w.hash c)]) }) := by
  unfold UploadPOSTFile
  rw [if_neg (fun h => hp h.1),
    if_neg (fun h => by rw [hf] at h; exact absurd h.2 (by simp)),
    if_pos hp, IsDuplicate_eq w.hash w.fs r.PathToFile c hf
      (st.ledgerAt loc), decide_eq_false hnd]
  unfold uploadFile uploadFileCore
  simp only [hfile, hf, ht, hparse, if_true]
  rw [if_neg hNA, CalculateFileHash_eq w.hash w.fs r.PathToFile c hf]
  simp only [Store.auditAt, Store.ledgerAt]
  rw [SaveFileHash_eq w.hash w.fs r.PathToFile c hf
    (getTab st.ledgers loc []) (w.hash c)]
  have hnd2 : ¬ storedDigest (getTab st.ledgers loc []) (w.hash c) := hnd
  rw [if_neg hnd2]
  rfl

/-- C4, witness: a remote rejection with status 500 still appends the audit
row and the ledger record. -/
theorem c4_recorded_regardless_of_status_w :
    UploadPOSTFile W₄ { PathToFile := "q" } "hashes.csv" st₀ =
      (.ok (some { Success := false, StatusCode := 500, Message := "",
                   ID := "id5" }),
       ⟨[("hashes.csv", [("q", "c1")])],
        [(CSVFilePath,
          [["q", "q", "https://pixeldrain.com/u/id5", "t", "2.0 B", "m",
            "", "500"]])],
        [(APIURL ++ "/file", "q")]⟩) :=
  c4_recorded_regardless_of_status W₄ { PathToFile := "q" } "hashes.csv"
    st₀ "c1" ⟨500, false, "id5", true⟩ rfl (by decide) (by decide) rfl
    (by decide) rfl rfl

/- Claim C5: the batch driver aborts on the first failure. -/

theorem processFiles_cons (w : World) (auth : Auth) (api loc fp : String)
    (rest : List String) (st : Store) :
    processFiles w auth api loc (fp :: rest) st =
      match UploadPOSTFile w (batchReq auth api fp) loc st with
      | (.error e, st2) => (.error e, st2)
      | (.ok _, st2) => processFiles w auth api loc rest st2 := rfl

theorem processFiles_ok_append (w : World) (auth : Auth)
    (api loc : String) (xs ys : List String) (st st' : Store)
    (h : processFiles w auth api loc xs st = (.ok (), st')) :
    processFiles w auth api loc (xs ++ ys) st =
      processFiles w auth api loc ys st' := by
  induction xs generalizing st with
  | nil =>
    unfold processFiles at h
    injection h with h1 h2
    subst h2
    rfl
  | cons fp rest ih =>
    rw [List.cons_append, processFiles_cons]
    rw [processFiles_cons] at h
    cases hu : UploadPOSTFile w (batchReq auth api fp) loc st with
    | mk res st2 =>
      rw [hu] at h
      cases res with
      | error e => simp at h
      | ok v => exact ih st2 h

theorem processFiles_cons_error (w : World) (auth : Auth)
    (api loc : String) (y : String) (zs : List String) (st st₂ : Store)
    (e : Err)
    (h : UploadPOSTFile w (batchReq auth api y) loc st = (.error e, st₂)) :
    processFiles w auth api loc (y :: zs) st = (.error e, st₂) := by
  unfold processFiles
  rw [h]

/-- C5: the directory batch driver processes the enumerated files strictly
in order; when every file of the prefix xs succeeds and the next file y
fails with an error, UploadDirectory stops and returns exactly that error
with the state reached after y - for every tail zs, which is never
attempted and does not influence the outcome - and no list of results is
returned. -/
theorem c5_batch_abort (w : World) (envMode dirPath : String)
    (auth : Auth) (baseURL : Option String) (st st₁ st₂ : Store)
    (xs : List String) (y : String) (zs : List String) (e : Err)
    (hw : w.listFiles dirPath = .ok (xs ++ y :: zs))
    (hxs : processFiles w auth (apiOf baseURL)
      (utils.GetHashFilePath envMode) xs st = (.ok (), st₁))
    (hy : UploadPOSTFile w (batchReq auth (apiOf baseURL) y)
      (utils.GetHashFilePath envMode) st₁ = (.error e, st₂)) :
    UploadDirectory w envMode dirPath auth baseURL st = (.error e, st₂) := by
  unfold UploadDirectory
  rw [hw]
  show processFiles w auth (apiOf baseURL) (utils.GetHashFilePath envMode)
    (xs ++ y :: zs) st = (.error e, st₂)
  rw [processFiles_ok_append w auth (apiOf baseURL)
    (utils.GetHashFilePath envMode) xs (y :: zs) st st₁ hxs]
  exact processFiles_cons_error w auth (apiOf baseURL)
    (utils.GetHashFilePath envMode) y zs st₁ st₂ e hy

/-- C5, witness: with files A, B, C under directory D and the transport
failing on B, the batch returns the transport error after processing A and
B; C is behind the failing file and does not affect the outcome. -/
theorem c5_batch_abort_w :
    (UploadDirectory W₅ "" "D" A₅ none st₀).1 = .error .transportFailed := by
  have h := c5_batch_abort W₅ "" "D" A₅ none st₀
    (processFiles W₅ A₅ (apiOf none) (utils.GetHashFilePath "")
      ["D/fA"] st₀).2
    (UploadPOSTFile W₅ (batchReq A₅ (apiOf none) "D/fB")
      (utils.GetHashFilePath "")
      (processFiles W₅ A₅ (apiOf none) (utils.GetHashFilePath "")
        ["D/fA"] st₀).2).2
    ["D/fA"] "D/fB" ["D/fC"] .transportFailed rfl rfl rfl
  rw [h]

/- Claim C9: which ledger location the core uses. -/

theorem uploadFileCore_observe (w : World) (r : RequestUpload)
    (loc fn fp : String) (size : Nat) (mt : String) (st₁ st₂ : Store)
    (hl : st₁.ledgerAt loc = st₂.ledgerAt loc)
    (ha : st₁.audits = st₂.audits) (hs : st₁.sent = st₂.sent) :
    observeF loc (uploadFileCore w r loc fn fp size mt st₁) =
      observeF loc (uploadFileCore w r loc fn fp size mt st₂) := by
  simp only [Store.ledgerAt] at hl
  simp only [uploadFileCore]
  cases htr : w.transmit (resolvedURL r) fn with
  | error e => simp [observeF, Store.ledgerAt, hl, ha, hs]
  | ok resp =>
    by_cases hpk : resp.parseOk = true
    · simp only [if_pos hpk]
      by_cases hNA : fp = "N/A"
      · simp only [if_pos hNA]
        simp [observeF, Store.ledgerAt, hl, ha, hs]
      · simp only [if_neg hNA]
        cases hfs : w.fs fp with
        | missing =>
          simp only [utils.CalculateFileHash, hfs]
          simp [observeF, Store.ledgerAt, Store.auditAt, hl, ha, hs]
        | dir =>
          simp only [utils.CalculateFileHash, hfs]
          simp [observeF, Store.ledgerAt, Store.auditAt, hl, ha, hs]
        | file c =>
          simp only [utils.CalculateFileHash, hfs, Store.ledgerAt,
            Store.auditAt]
          rw [hl]
          simp only [SaveFileHash_eq w.hash w.fs fp c hfs]
          by_cases hsd : storedDigest (getTab st₂.ledgers loc [])
            (w.hash c)
          · simp only [if_pos hsd]
            simp [observeF, Store.ledgerAt, hl, ha, hs, getTab_upsert_self]
          · simp only [if_neg hsd]
            simp [observeF, Store.ledgerAt, hl, ha, hs, getTab_upsert_self]
    · simp only [if_neg hpk]
      simp [observeF, Store.ledgerAt, hl, ha, hs]

theorem uploadFile_observe (w : World) (r : RequestUpload) (loc : String)
    (st₁ st₂ : Store)
    (hl : st₁.ledgerAt loc = st₂.ledgerAt loc)
    (ha : st₁.audits = st₂.audits) (hs : st₁.sent = st₂.sent) :
    observeF loc (uploadFile w r loc st₁) =
      observeF loc (uploadFile w r loc st₂) := by
  unfold uploadFile
  cases hfl : r.File with
  | some buf =>
    by_cases hn : r.FileName = ""
    · simp only [if_pos hn]
      simp [observeF, hl, ha, hs]
    · simp only [if_neg hn]
      exact uploadFileCore_observe w r loc r.FileName
        (if r.PathToFile = "" then "N/A" else r.PathToFile) buf.length
        (w.mime buf) st₁ st₂ hl ha hs
  | none =>
    cases hfs : w.fs r.PathToFile with
    | missing => simp [observeF, hl, ha, hs]
    | dir => simp [observeF, hl, ha, hs]
    | file c =>
      exact uploadFileCore_observe w r loc (baseName r.PathToFile)
        r.PathToFile c.length (w.mime c) st₁ st₂ hl ha hs

theorem wrap_observe (w : World) (r : RequestUpload) (loc : String)
    (st₁ st₂ : Store)
    (hl : st₁.ledgerAt loc = st₂.ledgerAt loc)
    (ha : st₁.audits = st₂.audits) (hs : st₁.sent = st₂.sent) :
    observe loc
      (match uploadFile w r loc st₁ with
       | (.error e, st2) => (.error e, st2)
       | (.ok rsp, st2) => (.ok (some rsp), st2)) =
    observe loc
      (match uploadFile w r loc st₂ with
       | (.error e, st2) => (.error e, st2)
       | (.ok rsp, st2) => (.ok (some rsp), st2)) := by
  have hcore := uploadFile_observe w r loc st₁ st₂ hl ha hs
  cases hu1 : uploadFile w r loc st₁ with
  | mk res1 s1 =>
    cases hu2 : uploadFile w r loc st₂ with
    | mk res2 s2 =>
      rw [hu1, hu2] at hcore
      simp only [observeF, Prod.mk.injEq] at hcore
      obtain ⟨he, hl2, ha2, hs2⟩ := hcore
      cases res1 with
      | error e1 =>
        cases res2 with
        | error e2 =>
          injection he with he2
          subst he2
          simp [observe, hl2, ha2, hs2]
        | ok v2 => exact absurd he (by simp)
      | ok v1 =>
        cases res2 with
        | error e2 => exact absurd he (by simp)
        | ok v2 =>
          injection he with he2
          subst he2
          simp [observe, hl2, ha2, hs2]

theorem UploadPOSTFile_observe (w : World) (r : RequestUpload)
    (loc : String) (st₁ st₂ : Store)
    (hl : st₁.ledgerAt loc = st₂.ledgerAt loc)
    (ha : st₁.audits = st₂.audits) (hs : st₁.sent = st₂.sent) :
    observe loc (UploadPOSTFile w r loc st₁) =
      observe loc (UploadPOSTFile w r loc st₂) := by
  unfold UploadPOSTFile
  by_cases h1 : r.PathToFile = "" ∧ r.File = none
  · simp only [if_pos h1]
    simp [observe, hl, ha, hs]
  · simp only [if_neg h1]
    by_cases h2 : r.PathToFile ≠ "" ∧ w.fs r.PathToFile = .missing
    · simp only [if_pos h2]
      simp [observe, hl, ha, hs]
    · simp only [if_neg h2]
      by_cases h3 : r.PathToFile ≠ ""
      · simp only [if_pos h3]
        rw [hl]
        cases hdup : utils.IsDuplicate w.hash w.fs (st₂.ledgerAt loc)
            r.PathToFile with
        | error e => simp [observe, hl, ha, hs]
        | ok b =>
          cases b with
          | true => simp [observe, hl, ha, hs]
          | false => exact wrap_observe w r loc st₁ st₂ hl ha hs
      · simp only [if_neg h3]
        exact wrap_observe w r loc st₁ st₂ hl ha hs

theorem uploadFileCore_frame (w : World) (r : RequestUpload)
    (loc fn fp : String) (size : Nat) (mt : String) (st : Store)
    (k : String) (hk : k ≠ loc) :
    (uploadFileCore w r loc fn fp size mt st).2.ledgerAt k =
      st.ledgerAt k := by
  simp only [uploadFileCore]
  cases htr : w.transmit (resolvedURL r) fn with
  | error e => rfl
  | ok resp =>
    by_cases hpk : resp.parseOk = true
    · simp only [if_pos hpk]
      by_cases hNA : fp = "N/A"
      · simp only [if_pos hNA]
        rfl
      · simp only [if_neg hNA]
        cases hfs : w.fs fp with
        | missing =>
          simp only [utils.CalculateFileHash, hfs]
          rfl
        | dir =>
          simp only [utils.CalculateFileHash, hfs]
          rfl
        | file c =>
          simp only [utils.CalculateFileHash, hfs, Store.ledgerAt,
            Store.auditAt]
          simp only [SaveFileHash_eq w.hash w.fs fp c hfs]
          by_cases hsd : storedDigest (getTab st.ledgers loc [])
            (w.hash c)
          · simp only [if_pos hsd]
            exact getTab_upsert_ne st.ledgers loc k _ [] hk
          · simp only [if_neg hsd]
            exact getTab_upsert_ne st.ledgers loc k _ [] hk
    · simp only [if_neg hpk]
      rfl

theorem uploadFile_frame (w : World) (r : RequestUpload) (loc : String)
    (st : Store) (k : String) (hk : k ≠ loc) :
    (uploadFile w r loc st).2.ledgerAt k = st.ledgerAt k := by
  unfold uploadFile
  cases hfl : r.File with
  | some buf =>
    by_cases hn : r.FileName = ""
    · simp only [if_pos hn]
    · simp only [if_neg hn]
      exact uploadFileCore_frame w r loc r.FileName
        (if r.PathToFile = "" then "N/A" else r.PathToFile) buf.length
        (w.mime buf) st k hk
  | none =>
    cases hfs : w.fs r.PathToFile with
    | missing => rfl
    | dir => rfl
    | file c =>
      exact uploadFileCore_frame w r loc (baseName r.PathToFile)
        r.PathToFile c.length (w.mime c) st k hk

theorem UploadPOSTFile_frame (w : World) (r : RequestUpload)
    (loc : String) (st : Store) (k : String) (hk : k ≠ loc) :
    (UploadPOSTFile w r loc st).2.ledgerAt k = st.ledgerAt k := by
  unfold UploadPOSTFile
  by_cases h1 : r.PathToFile = "" ∧ r.File = none
  · simp only [if_pos h1]
  · simp only [if_neg h1]
    by_cases h2 : r.PathToFile ≠ "" ∧ w.fs r.PathToFile = .missing
    · simp only [if_pos h2]
    · simp only [if_neg h2]
      have hwrap : (match uploadFile w r loc st with
          | (.error e, st2) => ((.error e : Except Err (Option ResponseUpload)), st2)
          | (.ok rsp, st2) => (.ok (some rsp), st2)).2.ledgerAt k =
          st.ledgerAt k := by
        have hf := uploadFile_frame w r loc st k hk
        cases hu : uploadFile w r loc st with
        | mk res s =>
          rw [hu] at hf
          cases res with
          | error e => exact hf
          | ok v => exact hf
      by_cases h3 : r.PathToFile ≠ ""
      · simp only [if_pos h3]
        cases hdup : utils.IsDuplicate w.hash w.fs (st.ledgerAt loc)
            r.PathToFile with
        | error e => rfl
        | ok b =>
          cases b with
          | true => rfl
          | false => exact hwrap
      · simp only [if_neg h3]
        exact hwrap

/-- C9 (amended): the single-file upload core uses exactly the resolved
ledger location it receives as a parameter: its observable outcome (the
returned result, the ledger at that location, the audit tables and the
transmission list) is determined by the ledger contents at that location
alone among the ledger stores, and no other ledger location is ever
modified; the core takes no environment-mode input at all.  The directory
batch driver, however, does not use the caller's resolved location: it
re-resolves the ledger path from the environment mode flag through
GetHashFilePath, and UploadPOST feeds the caller's location into the batch
driver's base-URL parameter (see the counterexample). -/
theorem c9_core_uses_caller_location (w : World) (r : RequestUpload)
    (loc : String) :
    (∀ st₁ st₂ : Store, st₁.ledgerAt loc = st₂.ledgerAt loc →
      st₁.audits = st₂.audits → st₁.sent = st₂.sent →
      observe loc (UploadPOSTFile w r loc st₁) =
        observe loc (UploadPOSTFile w r loc st₂)) ∧
    (∀ (st : Store) (k : String), k ≠ loc →
      (UploadPOSTFile w r loc st).2.ledgerAt k = st.ledgerAt k) :=
  ⟨fun st₁ st₂ hl ha hs => UploadPOSTFile_observe w r loc st₁ st₂ hl ha hs,
   fun st k hk => UploadPOSTFile_frame w r loc st k hk⟩

/-- C9, witness: the single-file outcome is unchanged when the stores
differ only at another ledger location. -/
theorem c9_core_uses_caller_location_w :
    observe "hashes.csv"
      (UploadPOSTFile Wd { PathToFile := "q" } "hashes.csv" stD) =
    observe "hashes.csv"
      (UploadPOSTFile Wd { PathToFile := "q" } "hashes.csv"
        ⟨[("other.csv", [("z", "zz")]), ("hashes.csv", [("p", "c1")])],
         [], []⟩) :=
  (c9_core_uses_caller_location Wd { PathToFile := "q" } "hashes.csv").1
    stD ⟨[("other.csv", [("z", "zz")]), ("hashes.csv", [("p", "c1")])],
      [], []⟩ (by decide) rfl rfl

/-- C9, counterexample: the claim says the ledger location used is exactly
the caller-passed resolved location and that behaviour is identical across
runs differing only in the environment mode flag.  Calling UploadPOST on
directory D with the resolved location myledger.csv behaves differently
under the two environment modes: in production mode the content is skipped
against hashes.csv (no transmission), in test mode it is transmitted - to
the URL myledger.csv/file, because the passed location is consumed as the
API base URL - and the ledger record lands in test_hashes.csv while the
ledger at the passed location myledger.csv stays empty. -/
theorem c9_counterexample :
    (UploadPOST W₉ "" rD "myledger.csv" st₉).2.sent = [] ∧
    (UploadPOST W₉ "test" rD "myledger.csv" st₉).2.sent =
      [("myledger.csv/file", "f")] ∧
    (UploadPOST W₉ "test" rD "myledger.csv" st₉).2.ledgerAt
      "myledger.csv" = [] ∧
    (UploadPOST W₉ "test" rD "myledger.csv" st₉).2.ledgerAt
      "test_hashes.csv" = [("D/f", "cc")] ∧
    UploadPOST W₉ "" rD "myledger.csv" st₉ ≠
      UploadPOST W₉ "test" rD "myledger.csv" st₉ := by
  refine ⟨rfl, rfl, rfl, rfl, by decide⟩

end GoPD
